import Mathlib

/-!
# Shallow embedding of the reconstruct-api backend

This development embeds the request handlers of the Express backend
(`server.js` and its helpers) as pure Lean functions over explicit store
states, and proves the spec's claims about them.

Conventions for the embedding:

* A relational table is a list of rows together with the next
  auto-increment id; `SELECT ... WHERE key` is `List.find?` on the row
  predicate, `INSERT` appends a row carrying the next id, `UPDATE ...
  WHERE id = ?` maps over the rows replacing the matching one,
  `DELETE ... WHERE p` filters, with `affectedRows` the number of rows
  removed.
* JavaScript `undefined`-able request fields are `Option` values; the
  JavaScript truthiness test `!x` on a string-or-undefined field is
  `strFalsy`, and `count || 1` on a numeric field is `jsOr1` (`0`, like
  `undefined`, is falsy in JavaScript).
* Dates reaching the mind-tools handlers pass through
  `new Date(d).toISOString().split('T')[0]`. The per-item merge
  (`processSyncItem`, `syncBatch`) is stated on the already-formatted
  date (on the canonical `YYYY-MM-DD` strings the pipeline is the
  identity). The full sync loop including this formatting step — which
  sits *outside* the per-item `try`, so that `toISOString` throwing on
  an invalid date escapes to the handler's outer catch and answers 500
  for the whole request — is `syncBatchDates`, with the ECMAScript date
  pipeline (an external collaborator) abstracted as a
  `String → Option String` parameter: `some f` is the formatted day,
  `none` is a throw.
-/

/-- Identity attached to a request by the bearer gate: `req.user`. -/
structure Identity where
  user_name : String
  email : String
deriving DecidableEq, Repr

/-- JavaScript falsiness `!x` for a string field that may be `undefined`:
true when the field is absent or the empty string. -/
def strFalsy : Option String → Bool
  | none => true
  | some s => s = ""

/-- JavaScript `count || 1` for a numeric field that may be `undefined`:
`0` is falsy in JavaScript, so both an absent count and a zero count
default to `1`. -/
def jsOr1 : Option Int → Int
  | none => 1
  | some c => if c = 0 then 1 else c

/-! ## Mind-tools activity store (`mind_tools_activity` table) -/

/-- One row of the `mind_tools_activity` table. -/
structure ActivityRow where
  id : Nat
  user_name : String
  email : String
  tracker_type : String
  activity_date : String
  count : Int
deriving DecidableEq, Repr

/-- The `mind_tools_activity` table plus its auto-increment counter. -/
structure ActivityStore where
  rows : List ActivityRow
  nextId : Nat
deriving DecidableEq, Repr

/-- The empty `mind_tools_activity` table (auto-increment starts at 1). -/
def ActivityStore.empty : ActivityStore := ⟨[], 1⟩

/-- Query `SELECT id, count FROM mind_tools_activity WHERE email = ? AND
tracker_type = ? AND activity_date = ?` (first matching row). -/
def findActivity (email tracker date : String) (rows : List ActivityRow) :
    Option ActivityRow :=
  rows.find? fun r =>
    r.email = email && r.tracker_type = tracker && r.activity_date = date

/-- Store well-formedness: row ids are pairwise distinct and below the
auto-increment counter (what MySQL's `AUTO_INCREMENT` primary key
guarantees). -/
def ActivityStore.WF (st : ActivityStore) : Prop :=
  (st.rows.map (·.id)).Nodup ∧ ∀ r ∈ st.rows, r.id < st.nextId

/-- One item of the `activities` array in a `POST /api/mind-tools/sync`
body. -/
structure SyncItem where
  tracker_type : Option String
  activity_date : Option String
  count : Option Int
deriving DecidableEq, Repr

/-- One entry of the `results` array in the sync response. -/
structure SyncResult where
  success : Bool
  message : String
  count : Option Int
deriving DecidableEq, Repr

/-- The per-item body of the `POST /api/mind-tools/sync` loop: validate
presence of `tracker_type` and `activity_date`, look the counter up by
(email, tracker, date), then insert with `count || 1`, update when the
stored count is strictly smaller than `count || 1`, or leave the row
alone and report the stored count. -/
def processSyncItem (uname uemail : String) (st : ActivityStore)
    (item : SyncItem) : ActivityStore × SyncResult :=
  if strFalsy item.tracker_type || strFalsy item.activity_date then
    (st, ⟨false, "Missing required fields", none⟩)
  else
    match findActivity uemail (item.tracker_type.getD "")
        (item.activity_date.getD "") st.rows with
    | some r =>
      if r.count < jsOr1 item.count then
        (⟨st.rows.map fun q =>
            if q.id = r.id then { q with count := jsOr1 item.count } else q,
          st.nextId⟩,
         ⟨true, "Activity updated", some (jsOr1 item.count)⟩)
      else
        (st, ⟨true, "No update needed (server has higher count)",
              some r.count⟩)
    | none =>
      (⟨st.rows ++ [⟨st.nextId, uname, uemail, item.tracker_type.getD "",
                     item.activity_date.getD "", jsOr1 item.count⟩],
        st.nextId + 1⟩,
       ⟨true, "Activity recorded", some (jsOr1 item.count)⟩)

/-- The `for (const activity of activities)` loop of
`POST /api/mind-tools/sync`: fold over the batch, collecting one result
per item. -/
def syncBatch (uname uemail : String) (st : ActivityStore) :
    List SyncItem → ActivityStore × List SyncResult
  | [] => (st, [])
  | item :: rest =>
    let step := processSyncItem uname uemail st item
    let tail := syncBatch uname uemail step.1 rest
    (tail.1, step.2 :: tail.2)

/-- The stored count for a (email, tracker, date) key, when a row for the
key exists. -/
def storedCount (email tracker date : String) (st : ActivityStore) :
    Option Int :=
  (findActivity email tracker date st.rows).map (·.count)

/-- A sequence of reconcile calls: fold `syncBatch` over a list of
batches, keeping the final store. -/
def applySyncs (uname uemail : String) (st : ActivityStore) :
    List (List SyncItem) → ActivityStore
  | [] => st
  | batch :: rest => applySyncs uname uemail (syncBatch uname uemail st batch).1 rest

/-- The `validTrackers` allowlist of `POST /api/mind-tools/activity`
(this list is *not* consulted by the `/sync` handler). -/
def validTrackers : List String :=
  ["thought_shredder", "make_me_smile", "bubble_wrap_popper", "break_things"]

/-! ## Vision-board / weekly-planner task store -/

/-- Generic HTTP JSON response: status code, success flag, message, and
the row id when the handler reports one. -/
structure ApiResp where
  status : Nat
  success : Bool
  message : String
  id : Option Nat
deriving DecidableEq, Repr

/-- One row of `vision_board_tasks` / `weekly_planner_tasks` (the `tasks`
JSON blob is kept opaque as a string). -/
structure TaskRow where
  id : Nat
  user_name : String
  email : String
  card_id : String
  tasks : String
  theme : String
deriving DecidableEq, Repr

/-- A task table plus its auto-increment counter. -/
structure TaskTable where
  rows : List TaskRow
  nextId : Nat
deriving DecidableEq, Repr

/-- The two task tables reachable from `POST /api/tasks/save`. -/
structure TaskStore where
  vision_board_tasks : TaskTable
  weekly_planner_tasks : TaskTable
deriving DecidableEq, Repr

/-- Query `SELECT id FROM <table> WHERE user_name = ? AND email = ? AND
card_id = ? AND theme = ?` (first matching row). -/
def findTask (u e ci th : String) (rows : List TaskRow) : Option TaskRow :=
  rows.find? fun r =>
    r.user_name = u && r.email = e && r.card_id = ci && r.theme = th

/-- The lookup-then-update-or-insert tail of `POST /api/tasks/save`,
acting on the table selected by the allowlisted `table` field. -/
def TaskTable.save (u e ci ta th : String) (tbl : TaskTable) :
    TaskTable × ApiResp :=
  match findTask u e ci th tbl.rows with
  | some ex =>
    (⟨tbl.rows.map fun q =>
        if q.id = ex.id then { q with tasks := ta } else q, tbl.nextId⟩,
     ⟨200, true, "Task updated successfully", some ex.id⟩)
  | none =>
    (⟨tbl.rows ++ [⟨tbl.nextId, u, e, ci, ta, th⟩], tbl.nextId + 1⟩,
     ⟨201, true, "Task saved successfully", some tbl.nextId⟩)

/-- The table the interpolated `${table}` identifier selects (callers
guard `name` with the allowlist first). -/
def TaskStore.table (st : TaskStore) (name : String) : TaskTable :=
  if name = "vision_board_tasks" then st.vision_board_tasks
  else st.weekly_planner_tasks

/-- Write back the table selected by `${table}`. -/
def TaskStore.setTable (st : TaskStore) (name : String) (tbl : TaskTable) :
    TaskStore :=
  if name = "vision_board_tasks" then { st with vision_board_tasks := tbl }
  else { st with weekly_planner_tasks := tbl }

/-- Body of `POST /api/tasks/save`. -/
structure TasksSaveBody where
  user_name : Option String
  email : Option String
  card_id : Option String
  tasks : Option String
  theme : Option String
  table : Option String
deriving DecidableEq, Repr

/-- Handler for `POST /api/tasks/save`: required-field validation, then the ownership
check against the bearer identity, then the table allowlist, then the
natural-key lookup and update/insert — in the source's order. -/
def tasksSave (reqUser : Identity) (b : TasksSaveBody) (st : TaskStore) :
    TaskStore × ApiResp :=
  if strFalsy b.user_name || strFalsy b.email || strFalsy b.card_id ||
      strFalsy b.tasks || strFalsy b.theme || strFalsy b.table then
    (st, ⟨400, false,
      "Missing required fields: user_name, email, card_id, tasks, theme, or table",
      none⟩)
  else if b.user_name ≠ some reqUser.user_name ∨ b.email ≠ some reqUser.email then
    (st, ⟨403, false,
      "Authorization mismatch: Cannot save tasks for another user", none⟩)
  else if b.table ≠ some "vision_board_tasks" ∧ b.table ≠ some "weekly_planner_tasks" then
    (st, ⟨400, false, "Invalid table name.", none⟩)
  else
    let tb := b.table.getD ""
    let r := TaskTable.save (b.user_name.getD "") (b.email.getD "")
      (b.card_id.getD "") (b.tasks.getD "") (b.theme.getD "") (st.table tb)
    (st.setTable tb r.1, r.2)

/-! ## Calendar store and color/type normalization -/

/-- One row of `calendar_2025_tasks`. -/
structure CalendarRow where
  id : Nat
  user_name : String
  email : String
  task_date : String
  task_type : Int
  task_description : String
  color_code : String
  theme : String
deriving DecidableEq, Repr

/-- The `calendar_2025_tasks` table plus its auto-increment counter. -/
structure CalendarStore where
  rows : List CalendarRow
  nextId : Nat
deriving DecidableEq, Repr

/-- JavaScript `startsWith` as a character-list check. -/
def jsStartsWith (s p : String) : Bool :=
  p.data.isPrefixOf s.data

/-- The regex search `/selected-color-(\d+)/`: leftmost occurrence of the
literal `selected-color-` followed by at least one digit; the capture is
the maximal digit run there. -/
def findColorNum : List Char → Option (List Char)
  | [] => none
  | c :: rest =>
    if "selected-color-".data.isPrefixOf (c :: rest) then
      let ds := ((c :: rest).drop 15).takeWhile (·.isDigit)
      if ds.isEmpty then findColorNum rest else some ds
    else findColorNum rest

/-- JavaScript `parseInt(ds, 10)` on a digit run. -/
def digitsToNat (ds : List Char) : Nat :=
  List.foldl (fun n c => 10 * n + (c.toNat - '0'.toNat)) 0 ds

/-- The per-row normalization of the calendar read paths (the `map` in
`GET /api/calendar/load` and its compatibility twins): rewrite a color
code that is absent or does not start with `selected-color-` to
`selected-color-<task_type>`, then correct `task_type` to the number the
regex `/selected-color-(\d+)/` finds in the (possibly rewritten) color
code, when it finds one. -/
def normalizeColorType (c : String) (t : Int) : String × Int :=
  let c1 := if c = "" ∨ jsStartsWith c "selected-color-" = false then
              "selected-color-" ++ toString t
            else c
  let t1 := if jsStartsWith c1 "selected-color-" then
              match findColorNum c1.data with
              | some ds =>
                if t ≠ (digitsToNat ds : Int) then (digitsToNat ds : Int) else t
              | none => t
            else t
  (c1, t1)

/-- Normalization lifted to a calendar row. -/
def normalizeCalendarRow (r : CalendarRow) : CalendarRow :=
  let p := normalizeColorType r.color_code r.task_type
  { r with color_code := p.1, task_type := p.2 }

/-- Exact shape `selected-color-<N>`: the prefix followed by one or more
digits and nothing else. Used to state the spec's wording of the
normalization rule. -/
def hasColorShape (c : String) : Bool :=
  jsStartsWith c "selected-color-" && !(c.data.drop 15).isEmpty &&
    (c.data.drop 15).all (·.isDigit)

/-- The normalization rule as the spec words it (refinement comparison
against `normalizeColorType`): a color code that does not match the
shape `selected-color-<N>` is rewritten to `selected-color-<task_type>`;
then, if the color code's embedded number disagrees with the type code,
the type code is corrected to that number. -/
def specColorNormalize (c : String) (t : Int) : String × Int :=
  let c1 := if hasColorShape c = false then "selected-color-" ++ toString t else c
  let t1 := if hasColorShape c1 then
              let n : Int := (digitsToNat (c1.data.drop 15) : Nat)
              if n ≠ t then n else t
            else t
  (c1, t1)

/-- Query `SELECT id FROM calendar_2025_tasks WHERE user_name = ? AND email = ?
AND task_date = ? AND theme = ?` (first matching row). -/
def findCalendar (u e d th : String) (rows : List CalendarRow) :
    Option CalendarRow :=
  rows.find? fun r =>
    r.user_name = u && r.email = e && r.task_date = d && r.theme = th

/-- Handler for `GET /api/calendar/load`: require `theme`, select the caller's rows
for the theme, and return them normalized. -/
def calendarLoad (reqUser : Identity) (theme : Option String)
    (st : CalendarStore) : ApiResp × List CalendarRow :=
  if strFalsy theme then
    (⟨400, false, "Missing required parameter: theme", none⟩, [])
  else
    let results := st.rows.filter fun r =>
      r.user_name = reqUser.user_name && r.email = reqUser.email &&
        r.theme = theme.getD ""
    (⟨200, true, "", none⟩, results.map normalizeCalendarRow)

/-- JavaScript truthiness of the `id` body field (a number: `0` is
falsy). -/
def idTruthy : Option Nat → Bool
  | none => false
  | some i => i ≠ 0

/-- JavaScript falsiness `!x` of a numeric field (`0` and `undefined`
are falsy). -/
def numFalsy : Option Int → Bool
  | none => true
  | some n => n = 0

/-- Body of `POST /api/calendar/save` (`shouldDelete` is the handler's
name for the body's delete flag). -/
structure CalendarSaveBody where
  user_name : Option String
  email : Option String
  task_date : Option String
  task_type : Option Int
  task_description : Option String
  color_code : Option String
  theme : Option String
  id : Option Nat
  shouldDelete : Bool
deriving DecidableEq, Repr

/-- Handler for `POST /api/calendar/save`: the ownership check runs first; then the
delete branch, the partial-update-by-id branch, the required-field
validation for new rows, and the natural-key upsert — in the source's
order. `affectedRows` of the delete/update statements is modelled as the
number of rows the `WHERE` clause matches. -/
def calendarSave (reqUser : Identity) (b : CalendarSaveBody)
    (st : CalendarStore) : CalendarStore × ApiResp :=
  if b.user_name ≠ some reqUser.user_name ∨ b.email ≠ some reqUser.email then
    (st, ⟨403, false,
      "Authorization mismatch: Cannot save calendar tasks for another user",
      none⟩)
  else
    let user_name := b.user_name.getD ""
    let email := b.email.getD ""
    if b.shouldDelete ∧ idTruthy b.id then
      let i := b.id.getD 0
      let remaining := st.rows.filter fun r =>
        ¬ (r.id = i ∧ r.user_name = user_name ∧ r.email = email)
      if remaining.length < st.rows.length then
        (⟨remaining, st.nextId⟩,
         ⟨200, true, "Calendar task deleted successfully", some i⟩)
      else
        (st, ⟨404, false, "Calendar task not found or not owned by this user",
              none⟩)
    else if idTruthy b.id then
      let i := b.id.getD 0
      let hit := st.rows.filter fun r =>
        r.id = i ∧ r.user_name = user_name ∧ r.email = email
      if hit.length > 0 then
        (⟨st.rows.map fun r =>
            if r.id = i ∧ r.user_name = user_name ∧ r.email = email then
              { r with
                task_type := b.task_type.getD r.task_type,
                task_description := b.task_description.getD r.task_description,
                color_code := b.color_code.getD r.color_code,
                task_date := b.task_date.getD r.task_date,
                theme := b.theme.getD r.theme }
            else r, st.nextId⟩,
         ⟨200, true, "Calendar task updated successfully", some i⟩)
      else
        (st, ⟨404, false, "Calendar task not found or not owned by this user",
              none⟩)
    else if strFalsy b.task_date || numFalsy b.task_type ||
        strFalsy b.task_description || strFalsy b.color_code ||
        strFalsy b.theme then
      (st, ⟨400, false,
        "Missing required fields: task_date, task_type, task_description, color_code, or theme",
        none⟩)
    else
      match findCalendar user_name email (b.task_date.getD "")
          (b.theme.getD "") st.rows with
      | some ex =>
        (⟨st.rows.map fun q =>
            if q.id = ex.id then
              { q with
                task_type := b.task_type.getD 0,
                task_description := b.task_description.getD "",
                color_code := b.color_code.getD "" }
            else q, st.nextId⟩,
         ⟨200, true, "Calendar task updated successfully", some ex.id⟩)
      | none =>
        (⟨st.rows ++ [⟨st.nextId, user_name, email, b.task_date.getD "",
                       b.task_type.getD 0, b.task_description.getD "",
                       b.color_code.getD "", b.theme.getD ""⟩],
          st.nextId + 1⟩,
         ⟨201, true, "Calendar task saved successfully", some st.nextId⟩)

/-- Handler for `DELETE /calendar2025/tasks/:id` (compatibility path): no identity
gate is mounted on this route; the `DELETE` filters on the id alone. -/
def compatDeleteCalendarTask (taskId : Nat) (st : CalendarStore) :
    CalendarStore × ApiResp :=
  let remaining := st.rows.filter fun r => ¬ r.id = taskId
  if remaining.length < st.rows.length then
    (⟨remaining, st.nextId⟩,
     ⟨200, true, "Calendar task deleted successfully", none⟩)
  else
    (st, ⟨404, false, "Calendar task not found", none⟩)

/-! ## The plain pseudo-token identity gate -/

/-- JavaScript `header.split('Bearer ')`: split on every occurrence of
the seven-character separator, scanning left to right. -/
def splitBearerAux : List Char → List Char → List (List Char)
  | acc, 'B' :: 'e' :: 'a' :: 'r' :: 'e' :: 'r' :: ' ' :: rest =>
    acc.reverse :: splitBearerAux [] rest
  | acc, c :: rest => splitBearerAux (c :: acc) rest
  | acc, [] => [acc.reverse]

/-- JavaScript `token.split(':')`. -/
def splitColon : List Char → List (List Char)
  | [] => [[]]
  | c :: rest =>
    if c = ':' then [] :: splitColon rest
    else
      match splitColon rest with
      | [] => [[c]]
      | p :: ps => (c :: p) :: ps

/-- Middleware `authenticateUserByToken`: accept a header of the form
`Bearer <token>`, take element 1 of `header.split('Bearer ')`, split it
on colons, and require the destructured first two parts to be present
and non-empty; `none` is the middleware's 401 rejection. -/
def authenticateUserByToken (authHeader : Option String) : Option Identity :=
  match authHeader with
  | none => none
  | some h =>
    if "Bearer ".data.isPrefixOf h.data = false then none
    else
      let token := (splitBearerAux [] h.data).getD 1 []
      let parts := splitColon token
      let user_name := parts.getD 0 []
      let emailPart := parts[1]?
      if user_name = [] ∨ emailPart = none ∨ emailPart = some [] then none
      else some ⟨String.mk user_name, String.mk (emailPart.getD [])⟩

/-! ## Sync loop with the date-formatting step of line 1722 -/

/-- Outcome of the whole `POST /api/mind-tools/sync` request body loop:
either the per-item `results` array (HTTP 200), or the response of the
handler's outer catch when something thrown escapes the loop. -/
inductive SyncOutcome where
  | ok (results : List SyncResult)
  | error (resp : ApiResp)
deriving DecidableEq, Repr

/-- Prepend the current item's `results.push(...)` entry, unless the
request already aborted. -/
def SyncOutcome.consResult (x : SyncResult) : SyncOutcome → SyncOutcome
  | SyncOutcome.ok rs => SyncOutcome.ok (x :: rs)
  | SyncOutcome.error r => SyncOutcome.error r

/-- Batch loop of `POST /api/mind-tools/sync` including
`const formattedDate = new Date(activity_date).toISOString().split('T')[0]`,
which runs *outside* the per-item `try`. The ECMAScript date pipeline is
an external collaborator, abstracted as `fmt`: `fmt s = some f` when
`new Date(s)` is valid and formats to the day `f`, and `fmt s = none`
when `toISOString` throws on an invalid date. A throw escapes to the
handler's outer catch: the request answers 500
(`Error syncing activities`) with no per-item results, the writes of the
items already processed persist, and the remaining items are never
processed. Items passing the presence check are merged exactly as in
`processSyncItem`, keyed on the formatted day. -/
def syncBatchDates (fmt : String → Option String) (uname uemail : String)
    (st : ActivityStore) : List SyncItem → ActivityStore × SyncOutcome
  | [] => (st, SyncOutcome.ok [])
  | item :: rest =>
    if strFalsy item.tracker_type || strFalsy item.activity_date then
      let tail := syncBatchDates fmt uname uemail st rest
      (tail.1, SyncOutcome.consResult ⟨false, "Missing required fields", none⟩
        tail.2)
    else
      match fmt (item.activity_date.getD "") with
      | none =>
        (st, SyncOutcome.error ⟨500, false, "Error syncing activities", none⟩)
      | some fd =>
        let step := processSyncItem uname uemail st
          { item with activity_date := some fd }
        let tail := syncBatchDates fmt uname uemail step.1 rest
        (tail.1, SyncOutcome.consResult step.2 tail.2)

/-! ## Shared list helpers -/

/-- Lemma: `find?` over an append when the left part has no match. -/
theorem find?_append_none {α} {p : α → Bool} {l₁ : List α} (l₂ : List α)
    (h : l₁.find? p = none) : (l₁ ++ l₂).find? p = l₂.find? p := by
  rw [List.find?_append, h, Option.none_or]

/-- Lemma: `find?` over an append when the left part has a match. -/
theorem find?_append_some {α} {p : α → Bool} {l₁ l₂ : List α} {a : α}
    (h : l₁.find? p = some a) : (l₁ ++ l₂).find? p = some a := by
  rw [List.find?_append, h]
  rfl

/-- Lemma: `find?` commutes with a map that does not disturb the predicate. -/
theorem find?_map_pres {α} {f : α → α} {p : α → Bool}
    (hf : ∀ x, p (f x) = p x) (l : List α) :
    (l.map f).find? p = (l.find? p).map f := by
  induction l with
  | nil => rfl
  | cons a l ih =>
    by_cases h : p a = true
    · rw [List.map_cons, List.find?_cons_of_pos _ (by rw [hf]; exact h),
        List.find?_cons_of_pos _ h, Option.map_some']
    · rw [List.map_cons, List.find?_cons_of_neg _ (by rw [hf]; exact h),
        List.find?_cons_of_neg _ h, ih]

/-- A list is a `isPrefixOf` of itself followed by anything. -/
theorem isPrefixOf_append_self {α} [BEq α] [LawfulBEq α] (l t : List α) :
    l.isPrefixOf (l ++ t) = true :=
  List.isPrefixOf_iff_prefix.2 (List.prefix_append l t)

/-! ## Sync-path helper lemmas -/

/-- Unfolding of `processSyncItem` when both required fields are present
and non-empty. -/
theorem processSyncItem_present (u e : String) (st : ActivityStore)
    (item : SyncItem) {tr d : String}
    (htr : item.tracker_type = some tr) (htr' : tr ≠ "")
    (hd : item.activity_date = some d) (hd' : d ≠ "") :
    processSyncItem u e st item =
      match findActivity e tr d st.rows with
      | some r =>
        if r.count < jsOr1 item.count then
          (⟨st.rows.map fun q =>
              if q.id = r.id then { q with count := jsOr1 item.count } else q,
            st.nextId⟩,
           ⟨true, "Activity updated", some (jsOr1 item.count)⟩)
        else
          (st, ⟨true, "No update needed (server has higher count)",
                some r.count⟩)
      | none =>
        (⟨st.rows ++ [⟨st.nextId, u, e, tr, d, jsOr1 item.count⟩],
          st.nextId + 1⟩,
         ⟨true, "Activity recorded", some (jsOr1 item.count)⟩) := by
  unfold processSyncItem
  rw [htr, hd]
  simp only [strFalsy, Option.getD_some]
  rw [if_neg]
  simp [htr', hd']

/-- Step `processSyncItem` preserves store well-formedness. -/
theorem WF_processSyncItem (u e : String) (st : ActivityStore)
    (item : SyncItem) (hwf : st.WF) : (processSyncItem u e st item).1.WF := by
  unfold processSyncItem
  split
  · exact hwf
  split
  next r heq =>
    split
    · -- update branch: ids are untouched
      have hid : ∀ x : ActivityRow,
          ((fun q : ActivityRow => if q.id = r.id then
            { q with count := jsOr1 item.count } else q) x).id = x.id := by
        intro x
        by_cases hx : x.id = r.id <;> simp [hx]
      constructor
      · show ((st.rows.map fun q : ActivityRow => if q.id = r.id then
            { q with count := jsOr1 item.count } else q).map (·.id)).Nodup
        rw [List.map_map]
        have hfun : ((fun x : ActivityRow => x.id) ∘ fun q : ActivityRow =>
            if q.id = r.id then { q with count := jsOr1 item.count } else q) =
            fun x : ActivityRow => x.id := funext hid
        rw [hfun]
        exact hwf.1
      · intro r' hr'
        rw [List.mem_map] at hr'
        obtain ⟨x, hx, rfl⟩ := hr'
        show ((fun q : ActivityRow => if q.id = r.id then
            { q with count := jsOr1 item.count } else q) x).id < st.nextId
        rw [hid x]
        exact hwf.2 x hx
    · exact hwf
  next heq =>
    constructor
    · show ((st.rows ++ _).map (·.id)).Nodup
      rw [List.map_append, List.nodup_append]
      refine ⟨hwf.1, List.nodup_singleton _, ?_⟩
      intro a ha hb
      rw [List.map_singleton, List.mem_singleton] at hb
      rw [List.mem_map] at ha
      obtain ⟨x, hx, rfl⟩ := ha
      exact absurd (hb ▸ hwf.2 x hx) (Nat.lt_irrefl _)
    · intro r' hr'
      rcases List.mem_append.1 hr' with h | h
      · exact Nat.lt_succ_of_lt (hwf.2 _ h)
      · rw [List.mem_singleton] at h
        subst h
        exact Nat.lt_succ_self _

/-- Updating the count of the row with a given id does not disturb a
`findActivity` lookup, beyond mapping the found row. -/
theorem findActivity_map_count (em tr d : String) (rows : List ActivityRow)
    (i : Nat) (v : Int) :
    findActivity em tr d (rows.map fun q =>
        if q.id = i then { q with count := v } else q) =
      (findActivity em tr d rows).map fun q =>
        if q.id = i then { q with count := v } else q := by
  unfold findActivity
  apply find?_map_pres
  intro x
  by_cases hx : x.id = i <;> simp [hx]

/-- One `processSyncItem` step never lowers a stored count: the count for
any (email, tracker, date) key stays or strictly grows. -/
theorem storedCount_processSyncItem_mono (u e em tr d : String)
    (st : ActivityStore) (item : SyncItem) (hwf : st.WF) {c : Int}
    (h : storedCount em tr d st = some c) :
    ∃ c', storedCount em tr d (processSyncItem u e st item).1 = some c' ∧
      (c' = c ∨ c < c') := by
  have h' := h
  unfold storedCount at h'
  obtain ⟨q, hq, hqc⟩ := Option.map_eq_some'.1 h'
  unfold processSyncItem
  split
  · exact ⟨c, h, Or.inl rfl⟩
  split
  next r heq =>
    split
    next hlt =>
      refine ⟨if q.id = r.id then jsOr1 item.count else q.count, ?_, ?_⟩
      · simp only [storedCount]
        rw [findActivity_map_count, hq, Option.map_some', Option.map_some']
        by_cases hqr : q.id = r.id <;> simp [hqr]
      · by_cases hqr : q.id = r.id
        · right
          have hqr' : q = r :=
            List.inj_on_of_nodup_map hwf.1
              (List.mem_of_find?_eq_some hq) (List.mem_of_find?_eq_some heq) hqr
          rw [if_pos hqr, ← hqc, hqr']
          exact hlt
        · left
          rw [if_neg hqr, hqc]
    next hge => exact ⟨c, h, Or.inl rfl⟩
  next heq =>
    refine ⟨c, ?_, Or.inl rfl⟩
    simp only [storedCount]
    unfold findActivity at hq ⊢
    rw [find?_append_some hq, Option.map_some', hqc]

/-- Default `jsOr1` never produces zero. -/
theorem jsOr1_ne_zero : ∀ o : Option Int, jsOr1 o ≠ 0 := by
  intro o
  cases o with
  | none => simp [jsOr1]
  | some c =>
    simp only [jsOr1]
    split
    · simp
    · assumption

/-- Fold `syncBatch` preserves store well-formedness. -/
theorem WF_syncBatch (u e : String) (st : ActivityStore)
    (items : List SyncItem) (hwf : st.WF) : (syncBatch u e st items).1.WF := by
  induction items generalizing st with
  | nil => exact hwf
  | cons item rest ih => exact ih _ (WF_processSyncItem u e st item hwf)

/-- A whole sync batch never lowers a stored count. -/
theorem storedCount_syncBatch_mono (u e em tr d : String)
    (st : ActivityStore) (items : List SyncItem) (hwf : st.WF) {c : Int}
    (h : storedCount em tr d st = some c) :
    ∃ c', storedCount em tr d (syncBatch u e st items).1 = some c' ∧ c ≤ c' := by
  induction items generalizing st c with
  | nil => exact ⟨c, h, le_refl c⟩
  | cons item rest ih =>
    obtain ⟨c₁, h₁, hc₁⟩ :=
      storedCount_processSyncItem_mono u e em tr d st item hwf h
    obtain ⟨c₂, h₂, hc₂⟩ :=
      ih (processSyncItem u e st item).1 (WF_processSyncItem u e st item hwf) h₁
    refine ⟨c₂, h₂, le_trans ?_ hc₂⟩
    rcases hc₁ with rfl | hlt
    · exact le_rfl
    · exact le_of_lt hlt

/-- Fold `applySyncs` preserves store well-formedness. -/
theorem WF_applySyncs (u e : String) (st : ActivityStore)
    (batches : List (List SyncItem)) (hwf : st.WF) :
    (applySyncs u e st batches).WF := by
  induction batches generalizing st with
  | nil => exact hwf
  | cons batch rest ih => exact ih _ (WF_syncBatch u e st batch hwf)

/-- A whole sequence of sync batches never lowers a stored count. -/
theorem storedCount_applySyncs_mono (u e em tr d : String)
    (st : ActivityStore) (batches : List (List SyncItem)) (hwf : st.WF)
    {c : Int} (h : storedCount em tr d st = some c) :
    ∃ c', storedCount em tr d (applySyncs u e st batches) = some c' ∧
      c ≤ c' := by
  induction batches generalizing st c with
  | nil => exact ⟨c, h, le_refl c⟩
  | cons batch rest ih =>
    obtain ⟨c₁, h₁, hc₁⟩ := storedCount_syncBatch_mono u e em tr d st batch hwf h
    obtain ⟨c₂, h₂, hc₂⟩ :=
      ih (syncBatch u e st batch).1 (WF_syncBatch u e st batch hwf) h₁
    exact ⟨c₂, h₂, le_trans hc₁ hc₂⟩

/-! ## Claim theorems: the sync path (C1, C2, C4, C10) -/

/-- C1, counterexample. The claim says an absent counter row is
inserted "with the client's count"; against the empty store a client
count of `0` is inserted as `1` (JavaScript `count || 1` treats `0` as
falsy), so the inserted count differs from the client's count. -/
theorem sync_merge_claim_counterexample :
    (processSyncItem "u" "e" ActivityStore.empty
        ⟨some "break_things", some "2025-01-01", some 0⟩).1.rows =
      [⟨1, "u", "e", "break_things", "2025-01-01", 1⟩] ∧
    ((0 : Int) ≠ 1) := by
  exact ⟨by decide, by decide⟩

/-- C1, amended. For a sync item with tracker and date present, with
the *effective* count `jsOr1 count` (the client's count when present and
nonzero, else 1): if no row exists for (user, tracker, date) a row is
inserted with the effective count and the item is reported as recorded
(created); if a row exists and the effective count exceeds the stored
count, the row is updated to the effective count (updated); otherwise no
write occurs and the stored value is reported (unchanged). The 3 / 2 / 5
scenario from the spec yields created 3, unchanged 3, updated 5. -/
theorem sync_merge_rule (u e : String) (st : ActivityStore)
    (item : SyncItem) (tr d : String)
    (htr : item.tracker_type = some tr) (htr' : tr ≠ "")
    (hd : item.activity_date = some d) (hd' : d ≠ "") :
    (findActivity e tr d st.rows = none →
      processSyncItem u e st item =
        (⟨st.rows ++ [⟨st.nextId, u, e, tr, d, jsOr1 item.count⟩],
          st.nextId + 1⟩,
         ⟨true, "Activity recorded", some (jsOr1 item.count)⟩)) ∧
    (∀ ex, findActivity e tr d st.rows = some ex →
      (ex.count < jsOr1 item.count →
        processSyncItem u e st item =
          (⟨st.rows.map fun q =>
              if q.id = ex.id then { q with count := jsOr1 item.count } else q,
            st.nextId⟩,
           ⟨true, "Activity updated", some (jsOr1 item.count)⟩)) ∧
      (jsOr1 item.count ≤ ex.count →
        processSyncItem u e st item =
          (st, ⟨true, "No update needed (server has higher count)",
                some ex.count⟩))) ∧
    jsOr1 none = 1 ∧
    (syncBatch "u" "e" ActivityStore.empty
        [⟨some "break_things", some "2025-01-01", some 3⟩]).2 =
      [⟨true, "Activity recorded", some 3⟩] ∧
    (syncBatch "u" "e"
        (syncBatch "u" "e" ActivityStore.empty
          [⟨some "break_things", some "2025-01-01", some 3⟩]).1
        [⟨some "break_things", some "2025-01-01", some 2⟩]).2 =
      [⟨true, "No update needed (server has higher count)", some 3⟩] ∧
    (syncBatch "u" "e"
        (syncBatch "u" "e"
          (syncBatch "u" "e" ActivityStore.empty
            [⟨some "break_things", some "2025-01-01", some 3⟩]).1
          [⟨some "break_things", some "2025-01-01", some 2⟩]).1
        [⟨some "break_things", some "2025-01-01", some 5⟩]).2 =
      [⟨true, "Activity updated", some 5⟩] := by
  refine ⟨?_, ?_, by decide, by decide, by decide, by decide⟩
  · intro hnone
    rw [processSyncItem_present u e st item htr htr' hd hd', hnone]
  · intro ex hex
    constructor
    · intro hlt
      rw [processSyncItem_present u e st item htr htr' hd hd', hex]
      dsimp only
      rw [if_pos hlt]
    · intro hge
      rw [processSyncItem_present u e st item htr htr' hd hd', hex]
      dsimp only
      rw [if_neg (not_lt.2 hge)]

/-- C1, amended, witness. The amended merge rule evaluated against a
concrete store: a second report of 5 over a stored 3 updates to 5. -/
theorem sync_merge_rule_witness :
    processSyncItem "u" "e" ⟨[⟨1, "u", "e", "break_things", "2025-01-01", 3⟩], 2⟩
        ⟨some "break_things", some "2025-01-01", some 5⟩ =
      (⟨[⟨1, "u", "e", "break_things", "2025-01-01", 5⟩], 2⟩,
       ⟨true, "Activity updated", some 5⟩) := by
  have h := (sync_merge_rule "u" "e"
      ⟨[⟨1, "u", "e", "break_things", "2025-01-01", 3⟩], 2⟩
      ⟨some "break_things", some "2025-01-01", some 5⟩
      "break_things" "2025-01-01" rfl (by decide) rfl (by decide)).2.1
      ⟨1, "u", "e", "break_things", "2025-01-01", 3⟩ (by decide)
  exact (h.1 (by decide)).trans (by decide)

/-- C2 (confirmed). Over any sequence of reconcile batches, the
stored count for a (user, trackerType, date) key never decreases; and a
single sync step that changes a stored count changes it to a strictly
greater value (every write on an existing row strictly increases it). -/
theorem sync_stored_count_monotonic (u e em tr d : String)
    (st : ActivityStore) (hwf : st.WF) :
    (∀ batches c c', storedCount em tr d st = some c →
      storedCount em tr d (applySyncs u e st batches) = some c' → c ≤ c') ∧
    (∀ item c c', storedCount em tr d st = some c →
      storedCount em tr d (processSyncItem u e st item).1 = some c' →
      c' ≠ c → c < c') := by
  constructor
  · intro batches c c' h h'
    obtain ⟨c'', h'', hc⟩ :=
      storedCount_applySyncs_mono u e em tr d st batches hwf h
    have hcc : c' = c'' := Option.some.inj (h'.symm.trans h'')
    exact hcc ▸ hc
  · intro item c c' h h' hne
    obtain ⟨c'', h'', hc⟩ :=
      storedCount_processSyncItem_mono u e em tr d st item hwf h
    have hcc : c' = c'' := Option.some.inj (h'.symm.trans h'')
    subst hcc
    rcases hc with rfl | hlt
    · exact absurd rfl hne
    · exact hlt

/-- C2, witness. Monotonicity applied to a concrete store holding 3,
synced with a batch reporting 5. -/
theorem sync_stored_count_monotonic_witness :
    storedCount "e" "break_things" "2025-01-01"
      ⟨[⟨1, "u", "e", "break_things", "2025-01-01", 3⟩], 2⟩ = some 3 ∧
    storedCount "e" "break_things" "2025-01-01"
      (applySyncs "u" "e" ⟨[⟨1, "u", "e", "break_things", "2025-01-01", 3⟩], 2⟩
        [[⟨some "break_things", some "2025-01-01", some 5⟩]]) = some 5 ∧
    (3 : Int) ≤ 5 := by
  refine ⟨by decide, by decide, ?_⟩
  exact (sync_stored_count_monotonic "u" "e" "e" "break_things" "2025-01-01"
      ⟨[⟨1, "u", "e", "break_things", "2025-01-01", 3⟩], 2⟩
      ⟨by decide, by decide⟩).1
    [[⟨some "break_things", some "2025-01-01", some 5⟩]] 3 5
    (by decide) (by decide)

/-- C4, counterexample. The claim says an item whose trackerType is
outside the enumerated set is reported as a failed item and causes no
database write. The sync handler never consults `validTrackers`: an item
with the unknown tracker `"not_a_valid_tracker"` is reported as a
success (recorded) and a row is inserted for it. -/
theorem sync_no_tracker_validation_counterexample :
    ("not_a_valid_tracker" ∉ validTrackers) ∧
    (syncBatch "u" "e" ActivityStore.empty
        [⟨some "not_a_valid_tracker", some "2025-01-01", some 3⟩]).2 =
      [⟨true, "Activity recorded", some 3⟩] ∧
    (syncBatch "u" "e" ActivityStore.empty
        [⟨some "not_a_valid_tracker", some "2025-01-01", some 3⟩]).1.rows =
      [⟨1, "u", "e", "not_a_valid_tracker", "2025-01-01", 3⟩] := by
  exact ⟨by decide, by decide, by decide⟩

/-- Lemma: the sync loop on a missing-field item pushes a failure and
continues with the store unchanged. -/
theorem syncBatchDates_cons_falsy (fmt : String → Option String)
    (u e : String) (st : ActivityStore) (item : SyncItem)
    (rest : List SyncItem)
    (h : (strFalsy item.tracker_type || strFalsy item.activity_date) = true) :
    syncBatchDates fmt u e st (item :: rest) =
      ((syncBatchDates fmt u e st rest).1,
       SyncOutcome.consResult ⟨false, "Missing required fields", none⟩
         (syncBatchDates fmt u e st rest).2) := by
  rw [syncBatchDates, if_pos h]

/-- Lemma: the sync loop on an item whose date fails to format aborts
the whole request with the outer catch's 500 response, keeping the
store as it stands. -/
theorem syncBatchDates_cons_abort (fmt : String → Option String)
    (u e : String) (st : ActivityStore) (item : SyncItem)
    (rest : List SyncItem)
    (h : (strFalsy item.tracker_type || strFalsy item.activity_date) = false)
    (hfd : fmt (item.activity_date.getD "") = none) :
    syncBatchDates fmt u e st (item :: rest) =
      (st, SyncOutcome.error ⟨500, false, "Error syncing activities", none⟩) := by
  rw [syncBatchDates, if_neg (by simp [h]), hfd]

/-- Lemma: the sync loop on an item whose date formats to `fd` merges it
like `processSyncItem` on the formatted date and continues. -/
theorem syncBatchDates_cons_fmt (fmt : String → Option String)
    (u e : String) (st : ActivityStore) (item : SyncItem)
    (rest : List SyncItem) (fd : String)
    (h : (strFalsy item.tracker_type || strFalsy item.activity_date) = false)
    (hfd : fmt (item.activity_date.getD "") = some fd) :
    syncBatchDates fmt u e st (item :: rest) =
      ((syncBatchDates fmt u e
          (processSyncItem u e st { item with activity_date := some fd }).1
          rest).1,
       SyncOutcome.consResult
         (processSyncItem u e st { item with activity_date := some fd }).2
         (syncBatchDates fmt u e
           (processSyncItem u e st { item with activity_date := some fd }).1
           rest).2) := by
  rw [syncBatchDates, if_neg (by simp [h]), hfd]

/-- Lemma: a pushed result keeps an outcome successful exactly when it
already was. -/
theorem consResult_ok {x : SyncResult} {o : SyncOutcome}
    {rs : List SyncResult}
    (h : SyncOutcome.consResult x o = SyncOutcome.ok rs) :
    ∃ rs', o = SyncOutcome.ok rs' ∧ rs = x :: rs' := by
  cases o with
  | ok rs₀ =>
    injection h with h'
    exact ⟨rs₀, rfl, h'.symm⟩
  | error r => simp [SyncOutcome.consResult] at h

/-- C4, amended. With the date-formatting step of line 1722 modelled
(`fmt` abstracts the ECMAScript pipeline: `some f` is the formatted day,
never empty; `none` means `toISOString` throws): whenever the sync loop
completes, it returns exactly one result per input item; an item missing
`tracker_type` or `activity_date` is reported as a failed item with no
write and processing continues; but the loop is not abort-free — the
formatting runs outside the per-item `try`, so an item whose non-empty
date fails to parse aborts the whole request with a 500 response
carrying no per-item results, keeping the writes of the already
processed prefix and never processing the remaining items; and
trackerType is *not* checked against the enumerated `validTrackers` set
— any item with both fields non-empty and a parseable date is processed
normally (here: the insert branch), whatever its trackerType. -/
theorem sync_batch_partial_failure (fmt : String → Option String)
    (u e : String) (hfmt : ∀ s f, fmt s = some f → f ≠ "") :
    (∀ st items rs,
      (syncBatchDates fmt u e st items).2 = SyncOutcome.ok rs →
      rs.length = items.length) ∧
    (∀ st item rest,
      (strFalsy item.tracker_type || strFalsy item.activity_date) = true →
      syncBatchDates fmt u e st (item :: rest) =
        ((syncBatchDates fmt u e st rest).1,
         SyncOutcome.consResult ⟨false, "Missing required fields", none⟩
           (syncBatchDates fmt u e st rest).2)) ∧
    (∀ st pre item rest rs,
      (syncBatchDates fmt u e st pre).2 = SyncOutcome.ok rs →
      (strFalsy item.tracker_type || strFalsy item.activity_date) = false →
      fmt (item.activity_date.getD "") = none →
      syncBatchDates fmt u e st (pre ++ item :: rest) =
        ((syncBatchDates fmt u e st pre).1,
         SyncOutcome.error ⟨500, false, "Error syncing activities", none⟩)) ∧
    (∀ st item tr d fd, item.tracker_type = some tr → tr ≠ "" →
      item.activity_date = some d → d ≠ "" → fmt d = some fd →
      findActivity e tr fd st.rows = none →
      (syncBatchDates fmt u e st [item]).1.rows =
        st.rows ++ [⟨st.nextId, u, e, tr, fd, jsOr1 item.count⟩] ∧
      (syncBatchDates fmt u e st [item]).2 =
        SyncOutcome.ok [⟨true, "Activity recorded", some (jsOr1 item.count)⟩]) := by
  refine ⟨?_, ?_, ?_, ?_⟩
  · intro st items
    induction items generalizing st with
    | nil =>
      intro rs h
      injection h with h'
      rw [← h']
      rfl
    | cons item rest ih =>
      intro rs h
      by_cases hfly : (strFalsy item.tracker_type ||
          strFalsy item.activity_date) = true
      · rw [syncBatchDates_cons_falsy fmt u e st item rest hfly] at h
        obtain ⟨rs', h₀, rfl⟩ := consResult_ok h
        rw [List.length_cons, ih st rs' h₀]
        rfl
      · rw [Bool.not_eq_true] at hfly
        cases hfd : fmt (item.activity_date.getD "") with
        | none =>
          rw [syncBatchDates_cons_abort fmt u e st item rest hfly hfd] at h
          simp at h
        | some fd =>
          rw [syncBatchDates_cons_fmt fmt u e st item rest fd hfly hfd] at h
          obtain ⟨rs', h₀, rfl⟩ := consResult_ok h
          rw [List.length_cons, ih _ rs' h₀]
          rfl
  · intro st item rest h
    exact syncBatchDates_cons_falsy fmt u e st item rest h
  · intro st pre
    induction pre generalizing st with
    | nil =>
      intro item rest rs _ hnf hfd
      exact syncBatchDates_cons_abort fmt u e st item rest hnf hfd
    | cons p pre' ih =>
      intro item rest rs h hnf hfd
      by_cases hp : (strFalsy p.tracker_type ||
          strFalsy p.activity_date) = true
      · rw [syncBatchDates_cons_falsy fmt u e st p pre' hp] at h
        obtain ⟨rs', h₀, rfl⟩ := consResult_ok h
        rw [List.cons_append,
          syncBatchDates_cons_falsy fmt u e st p (pre' ++ item :: rest) hp,
          ih st item rest rs' h₀ hnf hfd,
          syncBatchDates_cons_falsy fmt u e st p pre' hp]
        rfl
      · rw [Bool.not_eq_true] at hp
        cases hpf : fmt (p.activity_date.getD "") with
        | none =>
          rw [syncBatchDates_cons_abort fmt u e st p pre' hp hpf] at h
          simp at h
        | some fd =>
          rw [syncBatchDates_cons_fmt fmt u e st p pre' fd hp hpf] at h
          obtain ⟨rs', h₀, rfl⟩ := consResult_ok h
          rw [List.cons_append,
            syncBatchDates_cons_fmt fmt u e st p (pre' ++ item :: rest) fd
              hp hpf,
            ih _ item rest rs' h₀ hnf hfd,
            syncBatchDates_cons_fmt fmt u e st p pre' fd hp hpf]
          rfl
  · intro st item tr d fd htr htr' hd hd' hfd hnone
    have hnf : (strFalsy item.tracker_type ||
        strFalsy item.activity_date) = false := by
      rw [htr, hd]
      simp [strFalsy, htr', hd']
    have hfd' : fmt (item.activity_date.getD "") = some fd := by
      rw [hd]
      exact hfd
    have hstep := processSyncItem_present u e st
      { item with activity_date := some fd }
      (show ({ item with activity_date := some fd } :
        SyncItem).tracker_type = some tr from htr)
      htr' rfl (hfmt d fd hfd)
    rw [hnone] at hstep
    rw [syncBatchDates_cons_fmt fmt u e st item [] fd hnf hfd', hstep]
    exact ⟨rfl, rfl⟩

/-- C4, amended, witness. A batch whose second item has an unparseable
date aborts with 500 and no per-item results while the first item's
write persists; a clean one-item batch with an unknown tracker returns
one recorded result and inserts the row. -/
theorem sync_batch_partial_failure_witness :
    syncBatchDates
        (fun s => if s = "2025-01-01" then some "2025-01-01" else none)
        "u" "e" ActivityStore.empty
        [⟨some "break_things", some "2025-01-01", some 3⟩,
         ⟨some "break_things", some "not-a-date", some 2⟩] =
      (⟨[⟨1, "u", "e", "break_things", "2025-01-01", 3⟩], 2⟩,
       SyncOutcome.error ⟨500, false, "Error syncing activities", none⟩) ∧
    (syncBatchDates
        (fun s => if s = "2025-01-01" then some "2025-01-01" else none)
        "u" "e" ActivityStore.empty
        [⟨some "not_a_valid_tracker", some "2025-01-01", some 3⟩]).1.rows =
      ActivityStore.empty.rows ++
        [⟨1, "u", "e", "not_a_valid_tracker", "2025-01-01", jsOr1 (some 3)⟩] := by
  have hfmt : ∀ s f,
      (fun s => if s = "2025-01-01" then some "2025-01-01" else none) s =
        some f → f ≠ "" := by
    intro s f h
    by_cases hs : s = "2025-01-01"
    · simp only [hs, if_pos rfl] at h
      injection h with h'
      rw [← h']
      decide
    · simp [hs] at h
  constructor
  · have h := (sync_batch_partial_failure
        (fun s => if s = "2025-01-01" then some "2025-01-01" else none)
        "u" "e" hfmt).2.2.1 ActivityStore.empty
      [⟨some "break_things", some "2025-01-01", some 3⟩]
      ⟨some "break_things", some "not-a-date", some 2⟩ []
      [⟨true, "Activity recorded", some 3⟩]
      (by decide) (by decide) (by decide)
    exact h.trans (by decide)
  · exact ((sync_batch_partial_failure
        (fun s => if s = "2025-01-01" then some "2025-01-01" else none)
        "u" "e" hfmt).2.2.2 ActivityStore.empty
      ⟨some "not_a_valid_tracker", some "2025-01-01", some 3⟩
      "not_a_valid_tracker" "2025-01-01" "2025-01-01"
      rfl (by decide) rfl (by decide) (by decide) (by decide)).1

/-- C10 (confirmed). In the sync path a client count of `0` behaves
exactly like an omitted count: the handler's output is identical for the
two, the insert branch stores `1`, and no write of the sync path ever
stores `0` (a zero-count row in the output store was already present in
the input store). -/
theorem sync_zero_count_as_omitted (u e : String) (st : ActivityStore) :
    (∀ tt ad, processSyncItem u e st ⟨tt, ad, some 0⟩ =
      processSyncItem u e st ⟨tt, ad, none⟩) ∧
    (∀ item r', r' ∈ (processSyncItem u e st item).1.rows → r'.count = 0 →
      r' ∈ st.rows) ∧
    (∀ tt ad tr d, tt = some tr → tr ≠ "" → ad = some d → d ≠ "" →
      findActivity e tr d st.rows = none →
      (processSyncItem u e st ⟨tt, ad, some 0⟩).1.rows =
        st.rows ++ [⟨st.nextId, u, e, tr, d, 1⟩]) := by
  refine ⟨?_, ?_, ?_⟩
  · intro tt ad
    have h0 : jsOr1 (some 0) = jsOr1 none := by decide
    unfold processSyncItem
    rw [h0]
  · intro item r' hr' hc
    revert hr'
    unfold processSyncItem
    split
    · exact fun hr' => hr'
    split
    next r heq =>
      split
      next hlt =>
        intro hr'
        rw [show (⟨st.rows.map fun q =>
            if q.id = r.id then { q with count := jsOr1 item.count } else q,
            st.nextId⟩ : ActivityStore).rows = st.rows.map fun q =>
            if q.id = r.id then { q with count := jsOr1 item.count } else q
          from rfl, List.mem_map] at hr'
        obtain ⟨x, hx, hfx⟩ := hr'
        by_cases hxr : x.id = r.id
        · rw [if_pos hxr] at hfx
          rw [← hfx] at hc
          exact absurd hc (jsOr1_ne_zero item.count)
        · rw [if_neg hxr] at hfx
          rw [← hfx]
          exact hx
      next hge => exact fun hr' => hr'
    next heq =>
      intro hr'
      rcases List.mem_append.1 hr' with h | h
      · exact h
      · rw [List.mem_singleton] at h
        rw [h] at hc
        exact absurd hc (jsOr1_ne_zero item.count)
  · intro tt ad tr d htt htt' had had' hnone
    rw [processSyncItem_present u e st ⟨tt, ad, some 0⟩ htt htt' had had', hnone]
    dsimp only
    norm_num [jsOr1]

/-- C10, witness. Zero-count behaviour evaluated concretely: the
item with count 0 inserts 1, exactly as the item with no count. -/
theorem sync_zero_count_as_omitted_witness :
    processSyncItem "u" "e" ActivityStore.empty
        ⟨some "break_things", some "2025-01-01", some 0⟩ =
      processSyncItem "u" "e" ActivityStore.empty
        ⟨some "break_things", some "2025-01-01", none⟩ ∧
    (processSyncItem "u" "e" ActivityStore.empty
        ⟨some "break_things", some "2025-01-01", some 0⟩).1.rows =
      ActivityStore.empty.rows ++ [⟨1, "u", "e", "break_things", "2025-01-01", 1⟩] := by
  exact ⟨(sync_zero_count_as_omitted "u" "e" ActivityStore.empty).1 _ _,
    (sync_zero_count_as_omitted "u" "e" ActivityStore.empty).2.2
      (some "break_things") (some "2025-01-01") "break_things" "2025-01-01"
      rfl (by decide) rfl (by decide) (by decide)⟩

/-! ## Claim theorems: save handlers and the compat delete (C3, C5, C9) -/

/-- C3, counterexample. The claim says a body identity differing
from the credential identity is always rejected with the authorization
error regardless of payload validity. In `POST /api/tasks/save` the
required-field validation runs first: a mismatched body that omits
`card_id` is rejected 400 (validation), not 403. -/
theorem ownership_check_order_counterexample :
    ((some "bob" : Option String) ≠ some "alice") ∧
    (tasksSave ⟨"alice", "a@x.com"⟩
        ⟨some "bob", some "a@x.com", none, some "[]", some "t",
         some "vision_board_tasks"⟩
        ⟨⟨[], 1⟩, ⟨[], 1⟩⟩).2.status = 400 ∧
    (tasksSave ⟨"alice", "a@x.com"⟩
        ⟨some "bob", some "a@x.com", none, some "[]", some "t",
         some "vision_board_tasks"⟩
        ⟨⟨[], 1⟩, ⟨[], 1⟩⟩).2.status ≠ 403 := by
  exact ⟨by decide, by decide, by decide⟩

/-- C3, amended. `POST /api/calendar/save` rejects any request whose
body identity differs from the credential identity with 403 before
anything else, regardless of payload validity, leaving the store
unchanged. `POST /api/tasks/save` runs its required-field validation
first; once all required fields are present, a mismatched identity is
always rejected with 403 and the store is unchanged (so the ownership
check still precedes the table allowlist, the natural-key lookup and
every mutating query). -/
theorem ownership_check_rejects (ru : Identity) :
    (∀ (b : CalendarSaveBody) (st : CalendarStore),
      (b.user_name ≠ some ru.user_name ∨ b.email ≠ some ru.email) →
      calendarSave ru b st =
        (st, ⟨403, false,
          "Authorization mismatch: Cannot save calendar tasks for another user",
          none⟩)) ∧
    (∀ (b : TasksSaveBody) (st : TaskStore),
      strFalsy b.user_name = false → strFalsy b.email = false →
      strFalsy b.card_id = false → strFalsy b.tasks = false →
      strFalsy b.theme = false → strFalsy b.table = false →
      (b.user_name ≠ some ru.user_name ∨ b.email ≠ some ru.email) →
      tasksSave ru b st =
        (st, ⟨403, false,
          "Authorization mismatch: Cannot save tasks for another user",
          none⟩)) := by
  constructor
  · intro b st hmis
    unfold calendarSave
    rw [if_pos hmis]
  · intro b st h1 h2 h3 h4 h5 h6 hmis
    unfold tasksSave
    rw [if_neg (by simp [h1, h2, h3, h4, h5, h6]), if_pos hmis]

/-- C3, amended, witness. Both rejection shapes evaluated at
concrete mismatched requests. -/
theorem ownership_check_rejects_witness :
    calendarSave ⟨"alice", "a@x.com"⟩
        ⟨some "bob", some "a@x.com", none, none, none, none, none, none, false⟩
        ⟨[], 1⟩ =
      (⟨[], 1⟩, ⟨403, false,
        "Authorization mismatch: Cannot save calendar tasks for another user",
        none⟩) ∧
    tasksSave ⟨"alice", "a@x.com"⟩
        ⟨some "bob", some "a@x.com", some "c1", some "[]", some "t",
         some "not_allowlisted"⟩
        ⟨⟨[], 1⟩, ⟨[], 1⟩⟩ =
      (⟨⟨[], 1⟩, ⟨[], 1⟩⟩, ⟨403, false,
        "Authorization mismatch: Cannot save tasks for another user", none⟩) := by
  exact ⟨(ownership_check_rejects ⟨"alice", "a@x.com"⟩).1 _ _
      (Or.inl (by decide)),
    (ownership_check_rejects ⟨"alice", "a@x.com"⟩).2 _ _
      (by decide) (by decide) (by decide) (by decide) (by decide) (by decide)
      (Or.inl (by decide))⟩

/-- Reading back the table just written. -/
theorem table_setTable (st : TaskStore) (n : String) (tbl : TaskTable) :
    (st.setTable n tbl).table n = tbl := by
  unfold TaskStore.table TaskStore.setTable
  by_cases h : n = "vision_board_tasks" <;> simp [h]

/-- Unfolding of `tasksSave` on a payload that passes validation, the
ownership check and the allowlist. -/
theorem tasksSave_valid (ru : Identity) (b : TasksSaveBody) (st : TaskStore)
    {tb ci ta th : String}
    (hu : b.user_name = some ru.user_name) (hu' : ru.user_name ≠ "")
    (he : b.email = some ru.email) (he' : ru.email ≠ "")
    (hci : b.card_id = some ci) (hci' : ci ≠ "")
    (hta : b.tasks = some ta) (hta' : ta ≠ "")
    (hth : b.theme = some th) (hth' : th ≠ "")
    (htb : b.table = some tb)
    (htb' : tb = "vision_board_tasks" ∨ tb = "weekly_planner_tasks") :
    tasksSave ru b st =
      (st.setTable tb
        (TaskTable.save ru.user_name ru.email ci ta th (st.table tb)).1,
       (TaskTable.save ru.user_name ru.email ci ta th (st.table tb)).2) := by
  have htbne : tb ≠ "" := by
    rcases htb' with h | h <;> simp [h]
  unfold tasksSave
  rw [hu, he, hci, hta, hth, htb]
  rw [if_neg (by simp [strFalsy, hu', he', hci', hta', hth', htbne])]
  rw [if_neg (by simp)]
  rw [if_neg (by rcases htb' with h | h <;> simp [h])]
  simp only [Option.getD_some]

/-- C5 (confirmed). For a valid payload whose natural key
(user_name, email, card_id, theme) has no stored row in the targeted
table, calling `POST /api/tasks/save` twice with the same payload yields
201 (created) then 200 (updated), and both responses carry the same row
id. -/
theorem upsert_create_then_update (ru : Identity) (b : TasksSaveBody)
    (st : TaskStore) (tb ci ta th : String)
    (hu : b.user_name = some ru.user_name) (hu' : ru.user_name ≠ "")
    (he : b.email = some ru.email) (he' : ru.email ≠ "")
    (hci : b.card_id = some ci) (hci' : ci ≠ "")
    (hta : b.tasks = some ta) (hta' : ta ≠ "")
    (hth : b.theme = some th) (hth' : th ≠ "")
    (htb : b.table = some tb)
    (htb' : tb = "vision_board_tasks" ∨ tb = "weekly_planner_tasks")
    (hnone : findTask ru.user_name ru.email ci th (st.table tb).rows = none) :
    (tasksSave ru b st).2.status = 201 ∧
    (tasksSave ru b st).2.id = some (st.table tb).nextId ∧
    (tasksSave ru b (tasksSave ru b st).1).2.status = 200 ∧
    (tasksSave ru b (tasksSave ru b st).1).2.id = (tasksSave ru b st).2.id := by
  have e1 := tasksSave_valid ru b st hu hu' he he' hci hci' hta hta' hth hth'
    htb htb'
  have hsave1 : TaskTable.save ru.user_name ru.email ci ta th (st.table tb) =
      (⟨(st.table tb).rows ++
          [⟨(st.table tb).nextId, ru.user_name, ru.email, ci, ta, th⟩],
        (st.table tb).nextId + 1⟩,
       ⟨201, true, "Task saved successfully", some (st.table tb).nextId⟩) := by
    unfold TaskTable.save
    rw [hnone]
  have e2 := tasksSave_valid ru b (tasksSave ru b st).1 hu hu' he he' hci hci'
    hta hta' hth hth' htb htb'
  have htab2 : ((tasksSave ru b st).1).table tb =
      ⟨(st.table tb).rows ++
          [⟨(st.table tb).nextId, ru.user_name, ru.email, ci, ta, th⟩],
        (st.table tb).nextId + 1⟩ := by
    rw [e1, hsave1]
    exact table_setTable st tb _
  have hfind2 : findTask ru.user_name ru.email ci th
      ((st.table tb).rows ++
        [⟨(st.table tb).nextId, ru.user_name, ru.email, ci, ta, th⟩]) =
      some ⟨(st.table tb).nextId, ru.user_name, ru.email, ci, ta, th⟩ := by
    unfold findTask at hnone ⊢
    rw [find?_append_none _ hnone]
    apply List.find?_cons_of_pos
    simp
  have hsave2 : TaskTable.save ru.user_name ru.email ci ta th
      (((tasksSave ru b st).1).table tb) =
      (⟨(((tasksSave ru b st).1).table tb).rows.map fun q =>
          if q.id = (st.table tb).nextId then { q with tasks := ta } else q,
        (((tasksSave ru b st).1).table tb).nextId⟩,
       ⟨200, true, "Task updated successfully", some (st.table tb).nextId⟩) := by
    unfold TaskTable.save
    rw [htab2]
    rw [hfind2]
  rw [e2, hsave2, e1, hsave1]
  exact ⟨rfl, rfl, rfl, rfl⟩

/-- C5, witness. The double save evaluated on the empty store: 201
with id 1, then 200 with id 1. -/
theorem upsert_create_then_update_witness :
    (tasksSave ⟨"alice", "a@x.com"⟩
      ⟨some "alice", some "a@x.com", some "card1", some "[]", some "animal",
       some "vision_board_tasks"⟩ ⟨⟨[], 1⟩, ⟨[], 1⟩⟩).2.status = 201 ∧
    (tasksSave ⟨"alice", "a@x.com"⟩
      ⟨some "alice", some "a@x.com", some "card1", some "[]", some "animal",
       some "vision_board_tasks"⟩
      (tasksSave ⟨"alice", "a@x.com"⟩
        ⟨some "alice", some "a@x.com", some "card1", some "[]", some "animal",
         some "vision_board_tasks"⟩ ⟨⟨[], 1⟩, ⟨[], 1⟩⟩).1).2.status = 200 ∧
    (tasksSave ⟨"alice", "a@x.com"⟩
      ⟨some "alice", some "a@x.com", some "card1", some "[]", some "animal",
       some "vision_board_tasks"⟩
      (tasksSave ⟨"alice", "a@x.com"⟩
        ⟨some "alice", some "a@x.com", some "card1", some "[]", some "animal",
         some "vision_board_tasks"⟩ ⟨⟨[], 1⟩, ⟨[], 1⟩⟩).1).2.id =
      (tasksSave ⟨"alice", "a@x.com"⟩
        ⟨some "alice", some "a@x.com", some "card1", some "[]", some "animal",
         some "vision_board_tasks"⟩ ⟨⟨[], 1⟩, ⟨[], 1⟩⟩).2.id := by
  have h := upsert_create_then_update ⟨"alice", "a@x.com"⟩
    ⟨some "alice", some "a@x.com", some "card1", some "[]", some "animal",
     some "vision_board_tasks"⟩ ⟨⟨[], 1⟩, ⟨[], 1⟩⟩
    "vision_board_tasks" "card1" "[]" "animal"
    rfl (by decide) rfl (by decide) rfl (by decide) rfl (by decide) rfl
    (by decide) rfl (Or.inl rfl) (by decide)
  exact ⟨h.1, h.2.2.1, h.2.2.2⟩

/-- C9 (confirmed). `DELETE /calendar2025/tasks/:id` is defined with
no identity gate (the embedding takes only the path id and the store):
it removes exactly the rows whose id equals the path parameter —
whatever user the row belongs to — answers 200 exactly when some row
matched, and answers 404 leaving the store unchanged otherwise. -/
theorem compat_delete_no_auth (st : CalendarStore) (taskId : Nat) :
    ((compatDeleteCalendarTask taskId st).2.status = 200 ↔
      ∃ r ∈ st.rows, r.id = taskId) ∧
    ((compatDeleteCalendarTask taskId st).1.rows =
      st.rows.filter fun r => ¬ r.id = taskId) ∧
    ((¬ ∃ r ∈ st.rows, r.id = taskId) →
      compatDeleteCalendarTask taskId st =
        (st, ⟨404, false, "Calendar task not found", none⟩)) ∧
    (∀ r ∈ st.rows, r.id = taskId →
      r ∉ (compatDeleteCalendarTask taskId st).1.rows) := by
  by_cases hx : ∃ r ∈ st.rows, r.id = taskId
  · have hlt : (st.rows.filter fun r => ¬ r.id = taskId).length <
        st.rows.length := by
      rw [List.length_filter_lt_length_iff_exists]
      obtain ⟨r, hr, hid⟩ := hx
      exact ⟨r, hr, by simp [hid]⟩
    have hres : compatDeleteCalendarTask taskId st =
        (⟨st.rows.filter fun r => ¬ r.id = taskId, st.nextId⟩,
         ⟨200, true, "Calendar task deleted successfully", none⟩) := by
      unfold compatDeleteCalendarTask
      rw [if_pos hlt]
    rw [hres]
    refine ⟨by simp [hx], rfl, fun h => absurd hx h, ?_⟩
    intro r hr hid hmem
    rw [List.mem_filter] at hmem
    have := hmem.2
    simp [hid] at this
  · have hnlt : ¬ (st.rows.filter fun r => ¬ r.id = taskId).length <
        st.rows.length := by
      rw [List.length_filter_lt_length_iff_exists]
      rintro ⟨r, hr, hpr⟩
      exact hx ⟨r, hr, by simpa using hpr⟩
    have hres : compatDeleteCalendarTask taskId st =
        (st, ⟨404, false, "Calendar task not found", none⟩) := by
      unfold compatDeleteCalendarTask
      rw [if_neg hnlt]
    rw [hres]
    have hself : st.rows.filter (fun r => ¬ r.id = taskId) = st.rows := by
      apply List.filter_eq_self.2
      intro a ha
      simp only [decide_not, Bool.not_eq_true']
      by_cases h : a.id = taskId
      · exact absurd ⟨a, ha, h⟩ hx
      · simp [h]
    refine ⟨by simp [hx], hself.symm, fun _ => rfl, ?_⟩
    intro r hr hid
    exact absurd ⟨r, hr, hid⟩ hx

/-- C9, witness. The delete evaluated concretely: a missing id
answers 404 and leaves the store unchanged; a present id removes the row
although the request carries no identity. -/
theorem compat_delete_no_auth_witness :
    compatDeleteCalendarTask 7
        ⟨[⟨1, "bob", "b@x.com", "2025-01-01", 2, "d", "selected-color-2",
           "animal"⟩], 2⟩ =
      (⟨[⟨1, "bob", "b@x.com", "2025-01-01", 2, "d", "selected-color-2",
          "animal"⟩], 2⟩,
       ⟨404, false, "Calendar task not found", none⟩) ∧
    (⟨1, "bob", "b@x.com", "2025-01-01", 2, "d", "selected-color-2",
      "animal"⟩ : CalendarRow) ∉
      (compatDeleteCalendarTask 1
        ⟨[⟨1, "bob", "b@x.com", "2025-01-01", 2, "d", "selected-color-2",
           "animal"⟩], 2⟩).1.rows := by
  exact ⟨(compat_delete_no_auth _ 7).2.2.1 (by decide),
    (compat_delete_no_auth _ 1).2.2.2 _ (by decide) rfl⟩

/-! ## Claim theorems: calendar color normalization (C6, C7) -/

/-- The template-literal rewrite always yields a string with the
`selected-color-` prefix. -/
theorem startsWith_color_append (t : Int) :
    jsStartsWith ("selected-color-" ++ toString t) "selected-color-" = true := by
  unfold jsStartsWith
  rw [String.data_append]
  exact isPrefixOf_append_self _ _

/-- First component of the normalization, unfolded. -/
theorem normalizeColorType_fst (c : String) (t : Int) :
    (normalizeColorType c t).1 =
      if c = "" ∨ jsStartsWith c "selected-color-" = false then
        "selected-color-" ++ toString t
      else c := rfl

/-- The normalized color code always carries the prefix. -/
theorem normalizeColorType_fst_startsWith (c : String) (t : Int) :
    jsStartsWith (normalizeColorType c t).1 "selected-color-" = true := by
  rw [normalizeColorType_fst]
  split
  · exact startsWith_color_append t
  · next h =>
    simp only [not_or, Bool.not_eq_false] at h
    exact h.2

/-- The normalized color code is never empty. -/
theorem normalizeColorType_fst_ne (c : String) (t : Int) :
    (normalizeColorType c t).1 ≠ "" := by
  intro hEmpty
  have h := normalizeColorType_fst_startsWith c t
  rw [hEmpty] at h
  exact absurd h (by decide)

/-- Second component of the normalization: the type code becomes the
number the regex finds in the normalized color code, if any. -/
theorem normalizeColorType_snd (c : String) (t : Int) :
    (normalizeColorType c t).2 =
      match findColorNum (normalizeColorType c t).1.data with
      | some ds => (digitsToNat ds : Int)
      | none => t := by
  have hsw := normalizeColorType_fst_startsWith c t
  rw [normalizeColorType_fst] at hsw
  unfold normalizeColorType
  dsimp only
  rw [if_pos hsw]
  cases hF : findColorNum (if c = "" ∨ jsStartsWith c "selected-color-" = false
      then "selected-color-" ++ toString t else c).data with
  | none => rfl
  | some ds =>
    by_cases ht : t = (digitsToNat ds : Int)
    · simp [ht]
    · simp [ht]

/-- C6, counterexample. The claim says a stored color code that does
not match the shape `selected-color-<N>` is rewritten to
`selected-color-<task_type>`. The code only tests the *prefix*:
`"selected-color-abc"` does not match the shape, yet it is left
untouched instead of being rewritten to `"selected-color-2"`. -/
theorem calendar_normalization_counterexample :
    hasColorShape "selected-color-abc" = false ∧
    specColorNormalize "selected-color-abc" 2 = ("selected-color-2", 2) ∧
    normalizeColorType "selected-color-abc" 2 = ("selected-color-abc", 2) ∧
    normalizeColorType "selected-color-abc" 2 ≠
      specColorNormalize "selected-color-abc" 2 := by
  exact ⟨by decide, by decide, by decide, by decide⟩

/-- C6, amended. The read normalization rewrites a color code that
is empty or lacks the `selected-color-` *prefix* (not the full
`selected-color-<N>` shape) to `selected-color-<task_type>`, and leaves
any prefixed color code as is; the type code then becomes the number the
regex `/selected-color-(\d+)/` finds in the resulting color code, when
it finds one, and is unchanged otherwise. The calendar load endpoint
applies exactly this per row. The spec's two scenarios hold:
("selected-color-5", 2) normalizes to type 5, and ("blue", 2) to
("selected-color-2", 2). -/
theorem calendar_normalization_rule (c : String) (t : Int) :
    ((c = "" ∨ jsStartsWith c "selected-color-" = false) →
      (normalizeColorType c t).1 = "selected-color-" ++ toString t) ∧
    (c ≠ "" → jsStartsWith c "selected-color-" = true →
      (normalizeColorType c t).1 = c) ∧
    ((normalizeColorType c t).2 =
      match findColorNum (normalizeColorType c t).1.data with
      | some ds => (digitsToNat ds : Int)
      | none => t) ∧
    (∀ (ru : Identity) (th : String) (st : CalendarStore), th ≠ "" →
      (calendarLoad ru (some th) st).2 =
        (st.rows.filter fun r => r.user_name = ru.user_name &&
          r.email = ru.email && r.theme = th).map normalizeCalendarRow) ∧
    normalizeColorType "selected-color-5" 2 = ("selected-color-5", 5) ∧
    normalizeColorType "blue" 2 = ("selected-color-2", 2) := by
  refine ⟨?_, ?_, normalizeColorType_snd c t, ?_, by decide, by decide⟩
  · intro h
    rw [normalizeColorType_fst, if_pos h]
  · intro h1 h2
    rw [normalizeColorType_fst, if_neg]
    simp [h1, h2]
  · intro ru th st hth
    unfold calendarLoad
    rw [if_neg (by simp [strFalsy, hth])]
    simp only [Option.getD_some]

/-- C6, amended, witness. The rewrite branch evaluated at
("blue", 2). -/
theorem calendar_normalization_rule_witness :
    (normalizeColorType "blue" 2).1 = "selected-color-" ++ toString (2 : Int) := by
  exact (calendar_normalization_rule "blue" 2).1 (Or.inr (by decide))

/-- C7 (confirmed). The normalization is a function of the stored
pair (hence deterministic) and idempotent: renormalizing an
already-normalized (color_code, task_type) pair changes nothing. -/
theorem calendar_normalization_idempotent (c : String) (t : Int) :
    normalizeColorType (normalizeColorType c t).1 (normalizeColorType c t).2 =
      normalizeColorType c t := by
  have hsw := normalizeColorType_fst_startsWith c t
  have hne := normalizeColorType_fst_ne c t
  have hsnd := normalizeColorType_snd c t
  rw [Prod.ext_iff]
  have hfst : (normalizeColorType (normalizeColorType c t).1
      (normalizeColorType c t).2).1 = (normalizeColorType c t).1 := by
    rw [normalizeColorType_fst, if_neg]
    simp [hne, hsw]
  refine ⟨hfst, ?_⟩
  rw [normalizeColorType_snd, hfst, hsnd]
  cases hF : findColorNum (normalizeColorType c t).1.data with
  | none => rfl
  | some ds => rfl

/-! ## Claim theorems: the plain pseudo-token gate (C8) -/

/-- The seven-character separator is consumed at the head of the scan. -/
theorem splitBearerAux_bearer (acc t : List Char) :
    splitBearerAux acc ('B' :: 'e' :: 'a' :: 'r' :: 'e' :: 'r' :: ' ' :: t) =
      acc.reverse :: splitBearerAux [] t := rfl

/-- Splitting on colons after a colon-free segment. -/
theorem splitColon_append (a : List Char) (t : List Char) (ha : ':' ∉ a) :
    splitColon (a ++ ':' :: t) = a :: splitColon t := by
  induction a with
  | nil => rfl
  | cons x xs ih =>
    have hx : x ≠ ':' := fun h => ha (h ▸ List.mem_cons_self x xs)
    have hxs : ':' ∉ xs := fun h => ha (List.mem_cons_of_mem x h)
    show splitColon (x :: (xs ++ ':' :: t)) = (x :: xs) :: splitColon t
    rw [splitColon, if_neg hx, ih hxs]

/-- Core unfolding of `authenticateUserByToken` on a well-formed header
whose token contains no second `Bearer ` separator. -/
theorem auth_eq_of_token (t : List Char) (h1 : splitBearerAux [] t = [t]) :
    authenticateUserByToken (some (String.mk ("Bearer ".data ++ t))) =
      (if (splitColon t).getD 0 [] = [] ∨ (splitColon t)[1]? = none ∨
          (splitColon t)[1]? = some [] then none
       else some ⟨String.mk ((splitColon t).getD 0 []),
                  String.mk (((splitColon t)[1]?).getD [])⟩) := by
  have hpre : "Bearer ".data.isPrefixOf ("Bearer ".data ++ t) = true :=
    isPrefixOf_append_self _ _
  unfold authenticateUserByToken
  dsimp only
  rw [hpre, if_neg (by simp)]
  have htok : (splitBearerAux [] ("Bearer ".data ++ t)).getD 1 [] = t := by
    show (splitBearerAux []
      ('B' :: 'e' :: 'a' :: 'r' :: 'e' :: 'r' :: ' ' :: t)).getD 1 [] = t
    rw [splitBearerAux_bearer, h1]
    rfl
  rw [htok]

/-- C8, counterexample. The claim says that for a token with more
than one colon the derived email is everything after the first colon.
`token.split(':')` destructured to two names takes the part *between*
the first and second colon: `alice:a@b.com:extra` yields email
`a@b.com`, not `a@b.com:extra`. -/
theorem auth_email_counterexample :
    authenticateUserByToken (some "Bearer alice:a@b.com:extra") =
      some ⟨"alice", "a@b.com"⟩ ∧
    ("a@b.com" : String) ≠ "a@b.com:extra" ∧
    authenticateUserByToken (some "Bearer alice:a@b.com:extra") ≠
      some ⟨"alice", "a@b.com:extra"⟩ := by
  exact ⟨by decide, by decide, by decide⟩

/-- C8, amended. The gate rejects (401) a missing header, a header
without the `Bearer ` prefix, and a token whose colon-split yields a
missing or empty first or second part; when it accepts, the name is the
part before the first colon and the email is the part *between* the
first and the second colon (anything after a second colon is dropped).
The colon-split of `a ++ ":" ++ b ++ ":" ++ rest` with colon-free `a`,
`b` indeed has `a` and `b` as its first two parts. -/
theorem auth_token_parsing :
    (authenticateUserByToken none = none) ∧
    (∀ s : String, "Bearer ".data.isPrefixOf s.data = false →
      authenticateUserByToken (some s) = none) ∧
    (∀ t a, splitBearerAux [] t = [t] → splitColon t = [a] →
      authenticateUserByToken (some (String.mk ("Bearer ".data ++ t))) =
        none) ∧
    (∀ t a b rest, splitBearerAux [] t = [t] →
      splitColon t = a :: b :: rest →
      authenticateUserByToken (some (String.mk ("Bearer ".data ++ t))) =
        if a = [] ∨ b = [] then none
        else some ⟨String.mk a, String.mk b⟩) ∧
    (∀ a b c2, ':' ∉ a → ':' ∉ b →
      splitColon (a ++ (':' :: (b ++ (':' :: c2)))) =
        a :: b :: splitColon c2) := by
  refine ⟨rfl, ?_, ?_, ?_, ?_⟩
  · intro s hs
    unfold authenticateUserByToken
    dsimp only
    rw [hs, if_pos rfl]
  · intro t a h1 hsplit
    rw [auth_eq_of_token t h1, hsplit]
    simp
  · intro t a b rest h1 hsplit
    rw [auth_eq_of_token t h1, hsplit]
    by_cases hab : a = [] ∨ b = []
    · rw [if_pos hab, if_pos]
      rcases hab with h | h
      · exact Or.inl (by simp [h])
      · exact Or.inr (Or.inr (by simp [h]))
    · rw [if_neg hab, if_neg]
      · simp
      · push_neg at hab
        simp [hab.1, hab.2]
  · intro a b c2 ha hb
    rw [splitColon_append a _ ha, splitColon_append b _ hb]

/-- C8, amended, witness. The acceptance branch evaluated on the
token `alice:x@y.com:zzz`. -/
theorem auth_token_parsing_witness :
    authenticateUserByToken
        (some (String.mk ("Bearer ".data ++ "alice:x@y.com:zzz".data))) =
      if "alice".data = [] ∨ "x@y.com".data = [] then none
      else some ⟨String.mk "alice".data, String.mk "x@y.com".data⟩ := by
  exact auth_token_parsing.2.2.2.1 "alice:x@y.com:zzz".data "alice".data
    "x@y.com".data ["zzz".data] (by decide) (by decide)
